import Mathlib

/-!
Verification of the incremental LeetCode-to-GitHub synchronization engine
(`sync_leetcode.py`).  The store (a GitHub repository) is modelled as an
association list from paths to stored files (content plus an opaque revision
token, the git blob `sha`).  All operations of the sync engine are embedded as
pure, executable Lean functions; remote calls that can fail are modelled with
`Except`, and side effects (writes to the store, delays of the retry loop) are
returned explicitly as lists of events.
-/

set_option autoImplicit false

namespace SyncLeetCode

/-- A stored artifact on the GitHub side: byte content (modelled as a `String`,
matching the UTF-8 decode in `_update_or_create_file`) plus the opaque revision
token (`sha`) required for updates. -/
structure StoredFile where
  content : String
  sha : Nat
deriving Repr, DecidableEq

/-- The store: a finite map from paths to stored files, as an association list. -/
abbrev Store := List (String × StoredFile)

/-- Reading the store, `repo.get_contents(path)`: `some` models a successful read (content + sha),
`none` models the 404 "file doesn't exist" signal. -/
def Store.get : Store → String → Option StoredFile
  | [], _ => none
  | (q, f) :: rest, p => if q = p then some f else Store.get rest p

/-- Writing a file at a path: replaces the binding if present, appends it otherwise.
Models the effect of `repo.create_file` / `repo.update_file` on the store. -/
def Store.set : Store → String → StoredFile → Store
  | [], p, f => [(p, f)]
  | (q, g) :: rest, p, f =>
      if q = p then (p, f) :: rest else (q, g) :: Store.set rest p f

theorem Store.get_set_self (s : Store) (p : String) (f : StoredFile) :
    (Store.set s p f).get p = some f := by
  induction s with
  | nil => simp [Store.set, Store.get]
  | cons hd tl ih =>
      obtain ⟨q, g⟩ := hd
      by_cases hq : q = p
      · simp [Store.set, hq, Store.get]
      · simp [Store.set, hq, Store.get, ih]

theorem Store.get_set_ne (s : Store) (p q : String) (f : StoredFile) (h : p ≠ q) :
    (Store.set s p f).get q = s.get q := by
  induction s with
  | nil => simp [Store.set, Store.get, h]
  | cons hd tl ih =>
      obtain ⟨r, g⟩ := hd
      by_cases hr : r = p
      · subst hr
        simp [Store.set, Store.get, h]
      · simp [Store.set, hr, Store.get, ih]

/-- A submission record as returned by the LeetCode submissions API
(the fields read by the sync engine). -/
structure Submission where
  title_slug : String
  title : String
  lang : String
  code : String
  runtime : String
  memory : String
  status_display : String
  timestamp : Nat
deriving Repr, DecidableEq

/-- Problem metadata as returned by the LeetCode GraphQL endpoint
(the fields read by the sync engine). -/
structure ProblemData where
  questionId : Nat
  title : String
  content : String
  difficulty : String
  topicTags : List String
deriving Repr, DecidableEq

/-- The mutable state of a `LeetCodeGitHubSync` object together with the store
it talks to: the GitHub repository contents and the in-memory `path_cache`. -/
structure SyncState where
  store : Store
  path_cache : List String
deriving Repr, DecidableEq

/-- A write issued to the store: `repo.create_file` or `repo.update_file`
(the latter carrying the revision token `sha` passed to the call). -/
inductive WriteOp where
  | create (path : String) (content : String)
  | update (path : String) (content : String) (sha : Nat)
deriving Repr, DecidableEq

/-- ASCII lower-casing of one character (the effect of Python `str.lower` on
the ASCII identifiers this program feeds it). -/
def char_lower (c : Char) : Char :=
  if 65 ≤ c.toNat ∧ c.toNat ≤ 90 then Char.ofNat (c.toNat + 32) else c

/-- Python `s.lower()` on ASCII strings, character by character. -/
def str_lower (s : String) : String :=
  String.mk (s.data.map char_lower)

/-- Python `s.replace(' ', '-')`: the pattern is a single character, so the
replacement is a character map. -/
def replace_spaces (s : String) : String :=
  String.mk (s.data.map (fun c => if c = ' ' then '-' else c))

/-- Left-pad the decimal rendering of `n` with zeros to width 4
(Python `f"{n:04d}"` for non-negative `n`). -/
def pad4 (n : Nat) : String :=
  let s := toString n
  String.mk (List.replicate (4 - s.length) '0') ++ s

/-- Left-pad the decimal rendering of `n` with zeros to width 2. -/
def pad2 (n : Nat) : String :=
  let s := toString n
  String.mk (List.replicate (2 - s.length) '0') ++ s

/-- Civil-calendar (proleptic Gregorian) date from a count of days since the
Unix epoch 1970-01-01, for non-negative day counts: the standard
`civil_from_days` algorithm specialised to `Nat`.  Models the date part of
`datetime.fromtimestamp(ts, tz=timezone.utc)`. -/
def civil_from_days (z0 : Nat) : Nat × Nat × Nat :=
  let z := z0 + 719468
  let era := z / 146097
  let doe := z % 146097
  let yoe := (doe - doe / 1460 + doe / 36524 - doe / 146096) / 365
  let y := yoe + era * 400
  let doy := doe - (365 * yoe + yoe / 4 - yoe / 100)
  let mp := (5 * doy + 2) / 153
  let d := doy - (153 * mp + 2) / 5 + 1
  let m := if mp < 10 then mp + 3 else mp - 9
  (if m ≤ 2 then y + 1 else y, m, d)

/-- Date rendering `datetime.fromtimestamp(timestamp, tz=timezone.utc).strftime('%Y-%m-%d')`:
the UTC calendar date of an epoch timestamp, rendered `YYYY-MM-DD`. -/
def format_date (timestamp : Nat) : String :=
  let c := civil_from_days (timestamp / 86400)
  pad4 c.1 ++ "-" ++ pad2 c.2.1 ++ "-" ++ pad2 c.2.2

/-- The static language-to-file-extension table (`LeetCodeGitHubSync.EXTENSIONS`). -/
def EXTENSIONS : List (String × String) :=
  [("python", "py"), ("python3", "py"), ("java", "java"),
   ("cpp", "cpp"), ("c++", "cpp"), ("javascript", "js"),
   ("typescript", "ts"), ("golang", "go"), ("ruby", "rb"),
   ("swift", "swift"), ("kotlin", "kt"), ("rust", "rs"),
   ("scala", "scala"), ("php", "php")]

/-- The extension lookup `get_file_extension`: `EXTENSIONS.get(lang.lower(), 'txt')`. -/
def get_file_extension (lang : String) : String :=
  match EXTENSIONS.find? (fun kv => kv.1 == str_lower lang) with
  | some kv => kv.2
  | none => "txt"

/-- The stats table row built in `process_submission`:
`f"| {lang} | {runtime} | {memory} | ✅ | {submission_date} |\n"`. -/
def stats_row (sub : Submission) : String :=
  "| " ++ sub.lang ++ " | " ++ sub.runtime ++ " | " ++ sub.memory ++ " | ✅ | "
    ++ format_date sub.timestamp ++ " |\n"

/-- The README builder `create_problem_readme`: the README.md template, byte for byte. -/
def create_problem_readme (pd : ProblemData) (stats : String) : String :=
  "# " ++ toString pd.questionId ++ ". " ++ pd.title ++ "\n\n"
    ++ "## Difficulty: " ++ pd.difficulty ++ "\n"
    ++ "## Topics: " ++ String.intercalate ", " pd.topicTags ++ "\n\n"
    ++ "## Problem\n\n"
    ++ pd.content ++ "\n\n"
    ++ "## Solution Stats\n\n"
    ++ "| Language | Runtime | Memory | Status | Last Submission |\n"
    ++ "|----------|---------|--------|--------|-----------------|\n"
    ++ stats ++ "\n"
    ++ "[View on LeetCode](https://leetcode.com/problems/"
    ++ replace_spaces (str_lower pd.title) ++ ")\n"

/-- The write decision `_update_or_create_file(file_path, content)`: read the store at the path;
if the file exists and its content differs, issue `update_file` with the
current revision token; if it exists with identical content, do nothing;
if the read signals 404, issue `create_file` and add the path to `path_cache`.
Returns the writes issued by this call and the successor state. -/
def update_or_create_file (st : SyncState) (file_path content : String) :
    List WriteOp × SyncState :=
  match st.store.get file_path with
  | some f =>
      if f.content ≠ content then
        ([WriteOp.update file_path content f.sha],
         { st with store := st.store.set file_path ⟨content, f.sha + 1⟩ })
      else
        ([], st)
  | none =>
      ([WriteOp.create file_path content],
       { store := st.store.set file_path ⟨content, 0⟩,
         path_cache := st.path_cache.insert file_path })

/-- The `{difficulty}/{0000-slug}` base path computed in `process_submission`. -/
def base_path_of (pd : ProblemData) (slug : String) : String :=
  str_lower pd.difficulty ++ "/" ++ pad4 pd.questionId ++ "-" ++ slug

/-- Storage-path derivation for the solution artifact:
`{difficulty.lower()}/{id:04d}-{slug}/solution.{ext(lang)}`. -/
def derive_solution_path (difficulty : String) (questionId : Nat)
    (slug lang : String) : String :=
  str_lower difficulty ++ "/" ++ pad4 questionId ++ "-" ++ slug
    ++ "/solution." ++ get_file_extension lang

/-- Per-submission processing, `process_submission`: fetch problem metadata, derive paths, write the
solution file (the raw submission code) and the README through
`_update_or_create_file`.  An error of the metadata fetch is logged and
re-raised, i.e. propagated to the caller. -/
def process_submission (gd : String → Except String ProblemData)
    (st : SyncState) (sub : Submission) :
    Except String (List WriteOp × SyncState) :=
  match gd sub.title_slug with
  | Except.error e => Except.error e
  | Except.ok pd =>
      let base_path := base_path_of pd sub.title_slug
      let file_path := base_path ++ "/solution." ++ get_file_extension sub.lang
      let r1 := update_or_create_file st file_path sub.code
      let readme_content := create_problem_readme pd (stats_row sub)
      let r2 := update_or_create_file r1.2 (base_path ++ "/README.md") readme_content
      Except.ok (r1.1 ++ r2.1, r2.2)

/-- The loop body of `sync_solutions`: submissions are processed sequentially;
the first exception aborts the loop (there is no per-submission catch in
`sync_solutions`, and `process_submission` re-raises).  Returns the writes
issued, the state reached, and the error that aborted the loop, if any. -/
def process_all (gd : String → Except String ProblemData) :
    List Submission → SyncState → List WriteOp × SyncState × Option String
  | [], st => ([], st, none)
  | sub :: rest, st =>
      match process_submission gd st sub with
      | Except.error e => ([], st, some e)
      | Except.ok r =>
          let rec' := process_all gd rest r.2
          (r.1 ++ rec'.1, rec'.2.1, rec'.2.2)

/-- A directory entry as returned by `repo.get_contents` on a directory:
a path and a type tag (`"dir"` or `"file"`). -/
structure Entry where
  path : String
  type : String
deriving Repr, DecidableEq

/-- The `while contents:` loop of `_init_path_cache`: pop the front entry,
record its path, and enqueue the listing of the entry when it is a directory.
`gc` models `repo.get_contents` on a directory path; a raised exception is an
`Except.error`.  The loop runs inside a `try` whose handler only logs, so an
error ends the walk and is *returned* (as the logged message), never raised;
the cache keeps whatever was accumulated so far.  `fuel` bounds the walk
(the real repository tree is finite). -/
def init_cache_loop (gc : String → Except String (List Entry)) :
    Nat → List Entry → List String → List String × Option String
  | 0, queue, acc => (acc, if queue.isEmpty then none else some "out of fuel")
  | _ + 1, [], acc => (acc, none)
  | fuel + 1, e :: rest, acc =>
      let acc' := acc ++ [e.path]
      if e.type == "dir" then
        match gc e.path with
        | Except.error msg => (acc', some msg)
        | Except.ok sub => init_cache_loop gc fuel (rest ++ sub) acc'
      else
        init_cache_loop gc fuel rest acc'

/-- Cache initialization, `_init_path_cache`: start the walk from the root listing.  An exception
anywhere in the traversal (including the initial `get_contents("")`) is caught
and logged; the function returns normally with the partial cache and the
logged message. -/
def init_path_cache (gc : String → Except String (List Entry)) (fuel : Nat) :
    List String × Option String :=
  match gc "" with
  | Except.error msg => ([], some msg)
  | Except.ok top => init_cache_loop gc fuel top []

/-- The constructor `LeetCodeGitHubSync.__init__`, on the cache side: the constructor always
completes and sets `path_cache` to whatever `_init_path_cache` accumulated,
whether or not the traversal failed. -/
def sync_init (gc : String → Except String (List Entry)) (fuel : Nat)
    (store : Store) : SyncState :=
  { store := store, path_cache := (init_path_cache gc fuel).1 }

/-- The `for i in range(retries)` loop of `retry_with_backoff`, iterating over
the remaining attempt indices.  `f i` is the outcome of attempt `i`
(0-indexed).  Returns `some` result when the loop returned or raised (`none`
models Python returning `None` after a loop that never ran, i.e.
`retries = 0`), together with the list of backoff delays slept, in order. -/
def retry_loop {α : Type} (f : Nat → Except String α) (backoff retries : Nat) :
    List Nat → Option (Except String α) × List Nat
  | [] => (none, [])
  | i :: rest =>
      match f i with
      | Except.ok a => (some (Except.ok a), [])
      | Except.error e =>
          if i = retries - 1 then
            (some (Except.error e), [])
          else
            let w := backoff * 2 ^ i
            let r := retry_loop f backoff retries rest
            (r.1, w :: r.2)

/-- The decorator `retry_with_backoff(retries, backoff_in_seconds)` applied to an operation
whose attempt outcomes are given by `f`. -/
def retry_with_backoff {α : Type} (retries backoff : Nat)
    (f : Nat → Except String α) : Option (Except String α) × List Nat :=
  retry_loop f backoff retries (List.range retries)

/-- The filter applied by `get_submissions`:
`[s for s in submissions if s['status_display'] == 'Accepted']`. -/
def filter_accepted (subs : List Submission) : List Submission :=
  subs.filter (fun s => s.status_display == "Accepted")

/-- Submission listing, `get_submissions`: fetch the submissions dump and retain the accepted ones. -/
def get_submissions (fetch : Except String (List Submission)) :
    Except String (List Submission) :=
  match fetch with
  | Except.error e => Except.error e
  | Except.ok subs => Except.ok (filter_accepted subs)

/-- The main loop, `sync_solutions`: fetch submissions (fatal on failure), then process each
in listing order; a per-submission failure propagates and aborts the rest. -/
def sync_solutions (gd : String → Except String ProblemData)
    (fetch : Except String (List Submission)) (st : SyncState) :
    List WriteOp × SyncState × Option String :=
  match get_submissions fetch with
  | Except.error e => ([], st, some e)
  | Except.ok subs => process_all gd subs st

/-- The two artifacts a submission gives rise to, as (path, built content)
pairs, when its metadata fetch succeeds: the solution file holding the raw
submission code and the README holding the rendered template. -/
def submission_artifacts (gd : String → Except String ProblemData)
    (sub : Submission) : List (String × String) :=
  match gd sub.title_slug with
  | Except.error _ => []
  | Except.ok pd =>
      [(base_path_of pd sub.title_slug ++ "/solution." ++ get_file_extension sub.lang,
        sub.code),
       (base_path_of pd sub.title_slug ++ "/README.md",
        create_problem_readme pd (stats_row sub))]

/-- The store holds content `c` at path `p`. -/
def holds_at (s : Store) (p c : String) : Prop :=
  Option.map StoredFile.content (s.get p) = some c

/-- No path is derived twice with different built content across (and within)
the submissions of a list: the hypothesis under which the sync is idempotent. -/
def artifacts_consistent (gd : String → Except String ProblemData)
    (subs : List Submission) : Prop :=
  ∀ s1 ∈ subs, ∀ s2 ∈ subs, ∀ pc1 ∈ submission_artifacts gd s1,
    ∀ pc2 ∈ submission_artifacts gd s2, pc1.1 = pc2.1 → pc1.2 = pc2.2

theorem update_eq_create (st : SyncState) (p c : String)
    (h : st.store.get p = none) :
    update_or_create_file st p c =
      ([WriteOp.create p c],
       ⟨st.store.set p ⟨c, 0⟩, st.path_cache.insert p⟩) := by
  simp [update_or_create_file, h]

theorem update_eq_skip (st : SyncState) (p c : String) (f : StoredFile)
    (hf : st.store.get p = some f) (hc : f.content = c) :
    update_or_create_file st p c = ([], st) := by
  simp [update_or_create_file, hf, hc]

theorem update_eq_update (st : SyncState) (p c : String) (f : StoredFile)
    (hf : st.store.get p = some f) (hc : f.content ≠ c) :
    update_or_create_file st p c =
      ([WriteOp.update p c f.sha],
       ⟨st.store.set p ⟨c, f.sha + 1⟩, st.path_cache⟩) := by
  simp [update_or_create_file, hf, hc]

theorem update_skip (st : SyncState) (p c : String) (h : holds_at st.store p c) :
    update_or_create_file st p c = ([], st) := by
  unfold holds_at at h
  cases hg : st.store.get p with
  | none => rw [hg] at h; exact absurd h (by simp)
  | some f =>
      rw [hg] at h
      simp at h
      simp [update_or_create_file, hg, h]

theorem update_establishes (st : SyncState) (p c : String) :
    holds_at (update_or_create_file st p c).2.store p c := by
  unfold holds_at update_or_create_file
  cases hg : st.store.get p with
  | none => simp [Store.get_set_self]
  | some f =>
      by_cases hc : f.content = c
      · simp [hc, hg]
      · simp [hc, hg, Store.get_set_self]

theorem update_get_other (st : SyncState) (p q c : String) (h : p ≠ q) :
    (update_or_create_file st p c).2.store.get q = st.store.get q := by
  unfold update_or_create_file
  cases hg : st.store.get p with
  | none => simp [Store.get_set_ne _ _ _ _ h]
  | some f =>
      by_cases hc : f.content = c
      · simp [hc]
      · simp [hc, Store.get_set_ne _ _ _ _ h]

theorem update_preserves (st : SyncState) (p cnew q c : String)
    (hold : holds_at st.store q c) (himp : p = q → cnew = c) :
    holds_at (update_or_create_file st p cnew).2.store q c := by
  by_cases hpq : p = q
  · subst hpq
    rw [← himp rfl]
    exact update_establishes st p cnew
  · unfold holds_at
    rw [update_get_other st p q cnew hpq]
    exact hold

theorem solution_path_ne_readme_path (base ext : String) :
    base ++ "/solution." ++ ext ≠ base ++ "/README.md" := by
  intro h
  rw [String.ext_iff] at h
  simp [String.data_append, List.append_assoc] at h

theorem process_submission_ok (gd : String → Except String ProblemData)
    (st : SyncState) (sub : Submission) (pd : ProblemData)
    (hgd : gd sub.title_slug = Except.ok pd) :
    process_submission gd st sub = Except.ok
      ((update_or_create_file st
          (base_path_of pd sub.title_slug ++ "/solution." ++ get_file_extension sub.lang)
          sub.code).1 ++
       (update_or_create_file
          (update_or_create_file st
            (base_path_of pd sub.title_slug ++ "/solution." ++ get_file_extension sub.lang)
            sub.code).2
          (base_path_of pd sub.title_slug ++ "/README.md")
          (create_problem_readme pd (stats_row sub))).1,
       (update_or_create_file
          (update_or_create_file st
            (base_path_of pd sub.title_slug ++ "/solution." ++ get_file_extension sub.lang)
            sub.code).2
          (base_path_of pd sub.title_slug ++ "/README.md")
          (create_problem_readme pd (stats_row sub))).2) := by
  simp [process_submission, hgd]

theorem process_submission_establishes (gd : String → Except String ProblemData)
    (st : SyncState) (sub : Submission) (pd : ProblemData)
    (w : List WriteOp) (st' : SyncState)
    (hgd : gd sub.title_slug = Except.ok pd)
    (hok : process_submission gd st sub = Except.ok (w, st'))
    (hcons : ∀ pc1 ∈ submission_artifacts gd sub, ∀ pc2 ∈ submission_artifacts gd sub,
      pc1.1 = pc2.1 → pc1.2 = pc2.2) :
    ∀ pc ∈ submission_artifacts gd sub, holds_at st'.store pc.1 pc.2 := by
  rw [process_submission_ok gd st sub pd hgd] at hok
  simp only [Except.ok.injEq, Prod.mk.injEq] at hok
  obtain ⟨-, hst⟩ := hok
  subst hst
  have m1 : ((base_path_of pd sub.title_slug ++ "/solution." ++ get_file_extension sub.lang),
      sub.code) ∈ submission_artifacts gd sub := by
    simp [submission_artifacts, hgd]
  have m2 : ((base_path_of pd sub.title_slug ++ "/README.md"),
      create_problem_readme pd (stats_row sub)) ∈ submission_artifacts gd sub := by
    simp [submission_artifacts, hgd]
  intro pc hpc
  rw [submission_artifacts, hgd] at hpc
  simp only [List.mem_cons, List.mem_singleton, List.not_mem_nil, or_false] at hpc
  rcases hpc with h | h
  · subst h
    exact update_preserves _ _ _ _ _ (update_establishes st _ _)
      (fun hp => hcons _ m2 _ m1 hp)
  · subst h
    exact update_establishes _ _ _

theorem process_submission_preserves (gd : String → Except String ProblemData)
    (st : SyncState) (sub : Submission) (w : List WriteOp) (st' : SyncState)
    (q c : String)
    (hok : process_submission gd st sub = Except.ok (w, st'))
    (hold : holds_at st.store q c)
    (hcons : ∀ pc ∈ submission_artifacts gd sub, pc.1 = q → pc.2 = c) :
    holds_at st'.store q c := by
  cases hgd : gd sub.title_slug with
  | error e => simp [process_submission, hgd] at hok
  | ok pd =>
      rw [process_submission_ok gd st sub pd hgd] at hok
      simp only [Except.ok.injEq, Prod.mk.injEq] at hok
      obtain ⟨-, hst⟩ := hok
      subst hst
      have m1 : ((base_path_of pd sub.title_slug ++ "/solution." ++ get_file_extension sub.lang),
          sub.code) ∈ submission_artifacts gd sub := by
        simp [submission_artifacts, hgd]
      have m2 : ((base_path_of pd sub.title_slug ++ "/README.md"),
          create_problem_readme pd (stats_row sub)) ∈ submission_artifacts gd sub := by
        simp [submission_artifacts, hgd]
      exact update_preserves _ _ _ _ _
        (update_preserves _ _ _ _ _ hold (hcons _ m1)) (hcons _ m2)

theorem process_skips (gd : String → Except String ProblemData)
    (st : SyncState) (sub : Submission) (pd : ProblemData)
    (hgd : gd sub.title_slug = Except.ok pd)
    (hall : ∀ pc ∈ submission_artifacts gd sub, holds_at st.store pc.1 pc.2) :
    process_submission gd st sub = Except.ok ([], st) := by
  have m1 : ((base_path_of pd sub.title_slug ++ "/solution." ++ get_file_extension sub.lang),
      sub.code) ∈ submission_artifacts gd sub := by
    simp [submission_artifacts, hgd]
  have m2 : ((base_path_of pd sub.title_slug ++ "/README.md"),
      create_problem_readme pd (stats_row sub)) ∈ submission_artifacts gd sub := by
    simp [submission_artifacts, hgd]
  have h1 := update_skip st _ _ (hall _ m1)
  rw [process_submission_ok gd st sub pd hgd, h1]
  have h2 := update_skip st _ _ (hall _ m2)
  simp [h2]

theorem process_all_preserves (gd : String → Except String ProblemData)
    (L : List Submission) (st : SyncState) (q c : String)
    (hold : holds_at st.store q c)
    (hcons : ∀ s ∈ L, ∀ pc ∈ submission_artifacts gd s, pc.1 = q → pc.2 = c) :
    holds_at (process_all gd L st).2.1.store q c := by
  induction L generalizing st with
  | nil => simpa [process_all]
  | cons sub rest ih =>
      cases hps : process_submission gd st sub with
      | error e => simpa [process_all, hps]
      | ok r =>
          have hpres := process_submission_preserves gd st sub r.1 r.2 q c
            (by rw [hps]) hold (hcons sub (List.mem_cons_self sub rest))
          have := ih r.2 hpres
            (fun s hs => hcons s (List.mem_cons_of_mem sub hs))
          simpa [process_all, hps]

theorem second_run_noop (gd : String → Except String ProblemData)
    (L : List Submission) (st0 : SyncState)
    (hcons : artifacts_consistent gd L) :
    process_all gd L ((process_all gd L st0).2.1) =
      ([], (process_all gd L st0).2.1, (process_all gd L st0).2.2) := by
  induction L generalizing st0 with
  | nil => simp [process_all]
  | cons sub rest ih =>
      cases hgd : gd sub.title_slug with
      | error e =>
          have hbad : process_submission gd st0 sub = Except.error e := by
            simp [process_submission, hgd]
          have hbad2 : ∀ st : SyncState, process_submission gd st sub = Except.error e := by
            intro st; simp [process_submission, hgd]
          simp [process_all, hbad, hbad2]
      | ok pd =>
          obtain ⟨w0, stA, hok⟩ :
              ∃ w0 stA, process_submission gd st0 sub = Except.ok (w0, stA) :=
            ⟨_, _, process_submission_ok gd st0 sub pd hgd⟩
          have hconsSelf : ∀ pc1 ∈ submission_artifacts gd sub,
              ∀ pc2 ∈ submission_artifacts gd sub, pc1.1 = pc2.1 → pc1.2 = pc2.2 :=
            hcons sub (List.mem_cons_self sub rest) sub (List.mem_cons_self sub rest)
          have hartsA : ∀ pc ∈ submission_artifacts gd sub, holds_at stA.store pc.1 pc.2 :=
            process_submission_establishes gd st0 sub pd w0 stA hgd hok hconsSelf
          have harts1 : ∀ pc ∈ submission_artifacts gd sub,
              holds_at (process_all gd rest stA).2.1.store pc.1 pc.2 := by
            intro pc hpc
            exact process_all_preserves gd rest stA pc.1 pc.2 (hartsA pc hpc)
              (fun s hs pc' hpc' heq =>
                hcons s (List.mem_cons_of_mem sub hs) sub (List.mem_cons_self sub rest)
                  pc' hpc' pc hpc heq)
          have hskip : process_submission gd ((process_all gd rest stA).2.1) sub =
              Except.ok ([], (process_all gd rest stA).2.1) :=
            process_skips gd _ sub pd hgd harts1
          have hrest : artifacts_consistent gd rest :=
            fun s1 hs1 s2 hs2 =>
              hcons s1 (List.mem_cons_of_mem sub hs1) s2 (List.mem_cons_of_mem sub hs2)
          have hIH := ih stA hrest
          have h1 : process_all gd (sub :: rest) st0 =
              (w0 ++ (process_all gd rest stA).1, (process_all gd rest stA).2.1,
               (process_all gd rest stA).2.2) := by
            simp [process_all, hok]
          rw [h1]
          simp only [process_all, hskip]
          rw [hIH]
          simp

/-- C1: the write decision of `_update_or_create_file` per storage path: a path
absent from the store is created; a stored file with identical content is
skipped (no write); a stored file with different content is updated with its
current revision token.  In particular, for contents `A ≠ B`, after `A` is
stored the decision for `B` is a write (an update carrying the current token)
and the decision for `A` again is a skip. -/
theorem change_detection_decision (st : SyncState) (p A B : String) (hAB : A ≠ B) :
    (st.store.get p = none →
      (update_or_create_file st p A).1 = [WriteOp.create p A]) ∧
    (∀ f : StoredFile, st.store.get p = some f → f.content = A →
      (update_or_create_file st p A).1 = []) ∧
    (∀ f : StoredFile, st.store.get p = some f → f.content ≠ A →
      (update_or_create_file st p A).1 = [WriteOp.update p A f.sha]) ∧
    (∃ t : Nat, (update_or_create_file (update_or_create_file st p A).2 p B).1 =
      [WriteOp.update p B t]) ∧
    (update_or_create_file (update_or_create_file st p A).2 p A).1 = [] := by
  refine ⟨?_, ?_, ?_, ?_, ?_⟩
  · intro h; simp [update_or_create_file, h]
  · intro f hf hc; simp [update_or_create_file, hf, hc]
  · intro f hf hc; simp [update_or_create_file, hf, hc]
  · have hest := update_establishes st p A
    unfold holds_at at hest
    cases hg : (update_or_create_file st p A).2.store.get p with
    | none => rw [hg] at hest; exact absurd hest (by simp)
    | some f =>
        rw [hg] at hest
        simp at hest
        refine ⟨f.sha, ?_⟩
        have hne : f.content ≠ B := by rw [hest]; exact hAB
        rw [update_eq_update _ p B f hg hne]
  · have h := update_skip (update_or_create_file st p A).2 p A (update_establishes st p A)
    rw [h]

/-- Closed instance of C1: after storing "a" at "p" from the empty store, the
decision for "a" again is a skip. -/
theorem change_detection_decision_witness :
    (update_or_create_file (update_or_create_file ⟨[], []⟩ "p" "a").2 "p" "a").1 = [] :=
  (change_detection_decision ⟨[], []⟩ "p" "a" "b" (by decide)).2.2.2.2

/-- C4: the retry wrapper with cap 3 and base delay `b`: failing on exactly the
first two attempts and succeeding on the 3rd returns the success result after
exactly the two backoff delays `b * 2 ^ 0` and `b * 2 ^ 1`; failing on all
three attempts propagates the 3rd attempt's error unmodified, after the same
two delays and no further attempt. -/
theorem retry_bound_policy {α : Type} (b : Nat) (f g : Nat → Except String α)
    (a : α) (e0 e1 e2 e3 e4 : String)
    (hf0 : f 0 = Except.error e0) (hf1 : f 1 = Except.error e1)
    (hf2 : f 2 = Except.ok a)
    (hg0 : g 0 = Except.error e3) (hg1 : g 1 = Except.error e4)
    (hg2 : g 2 = Except.error e2) :
    retry_with_backoff 3 b f = (some (Except.ok a), [b * 2 ^ 0, b * 2 ^ 1]) ∧
    retry_with_backoff 3 b g = (some (Except.error e2), [b * 2 ^ 0, b * 2 ^ 1]) := by
  have h3 : List.range 3 = [0, 1, 2] := by decide
  constructor <;>
    simp [retry_with_backoff, h3, retry_loop, hf0, hf1, hf2, hg0, hg1, hg2]

def retryA : Nat → Except String Nat :=
  fun i => if i < 2 then Except.error "t" else Except.ok 7

def retryB : Nat → Except String Nat :=
  fun _ => Except.error "t"

/-- Closed instance of C4 at base delay 1, with an operation failing twice then
succeeding, and one failing on all three attempts. -/
theorem retry_bound_policy_witness :
    retry_with_backoff 3 1 retryA = (some (Except.ok 7), [1 * 2 ^ 0, 1 * 2 ^ 1]) ∧
    retry_with_backoff 3 1 retryB = (some (Except.error "t"), [1 * 2 ^ 0, 1 * 2 ^ 1]) :=
  retry_bound_policy 1 retryA retryB 7 "t" "t" "t" "t" "t" rfl rfl rfl rfl rfl rfl

/-- C7 (amended): only a successful create mutates the in-memory `path_cache`
(adding the created path); a successful update leaves the cache unchanged, so
there are writes (updates) without any cache update. -/
theorem cache_updated_only_on_create (st : SyncState) (p c : String) :
    (st.store.get p = none →
      (update_or_create_file st p c).1 = [WriteOp.create p c] ∧
      (update_or_create_file st p c).2.path_cache = st.path_cache.insert p) ∧
    (∀ f : StoredFile, st.store.get p = some f →
      (update_or_create_file st p c).2.path_cache = st.path_cache) := by
  constructor
  · intro h; simp [update_or_create_file, h]
  · intro f hf
    by_cases hc : f.content = c <;> simp [update_or_create_file, hf, hc]

/-- Closed instance of C7 (amended): creating "p" from the empty store adds it
to the path cache. -/
theorem cache_updated_only_on_create_witness :
    (update_or_create_file ⟨[], []⟩ "p" "c").2.path_cache = List.insert "p" [] :=
  ((cache_updated_only_on_create ⟨[], []⟩ "p" "c").1 rfl).2

/-- C7 counterexample to the claim as stated: with the file "p" stored holding
"A" (revision token 5) and an empty path cache, writing "B" issues an update
write while the cache stays empty: a write without any cache update. -/
theorem update_write_without_cache_update_cex :
    (update_or_create_file ⟨[("p", ⟨"A", 5⟩)], []⟩ "p" "B").1 =
      [WriteOp.update "p" "B" 5] ∧
    (update_or_create_file ⟨[("p", ⟨"A", 5⟩)], []⟩ "p" "B").2.path_cache = [] := by
  decide

/-- C8: storage-path derivation is a pure function of (difficulty, problem id,
slug, language): re-deriving it for the same inputs yields the same path, the
derived path is exactly the solution path `process_submission` writes to, and
for problem 206, slug "reverse-linked-list", difficulty "easy", language
"python" it is "easy/0206-reverse-linked-list/solution.py". -/
theorem path_derivation_deterministic :
    (∀ d : String, ∀ q : Nat, ∀ s l : String,
      derive_solution_path d q s l = derive_solution_path d q s l) ∧
    (∀ pd : ProblemData, ∀ slug lang : String,
      derive_solution_path pd.difficulty pd.questionId slug lang =
        base_path_of pd slug ++ "/solution." ++ get_file_extension lang) ∧
    derive_solution_path "easy" 206 "reverse-linked-list" "python" =
      "easy/0206-reverse-linked-list/solution.py" := by
  refine ⟨fun _ _ _ _ => rfl, fun _ _ _ => rfl, ?_⟩
  decide

/-- C9: the retained submissions are exactly those with status "Accepted", in
their original listing order (the retained list is a sublist of the fetched
one, and membership is characterised by the status test). -/
theorem filtering_accepted_only (subs : List Submission) :
    List.Sublist (filter_accepted subs) subs ∧
    (∀ s : Submission, s ∈ filter_accepted subs ↔
      s ∈ subs ∧ s.status_display = "Accepted") ∧
    get_submissions (Except.ok subs) = Except.ok (filter_accepted subs) := by
  refine ⟨List.filter_sublist subs, fun s => ?_, rfl⟩
  simp [filter_accepted, List.mem_filter]

/-- C10: the write/skip decision of `_update_or_create_file` and its effect on
the store depend only on the store content at the path and the new content,
never on the in-memory path cache: any two cache states yield the same writes
and the same resulting store. -/
theorem decision_independent_of_cache (S : Store) (c1 c2 : List String)
    (p c : String) :
    (update_or_create_file ⟨S, c1⟩ p c).1 = (update_or_create_file ⟨S, c2⟩ p c).1 ∧
    (update_or_create_file ⟨S, c1⟩ p c).2.store =
      (update_or_create_file ⟨S, c2⟩ p c).2.store := by
  unfold update_or_create_file
  cases hg : Store.get S p with
  | none => simp
  | some f => by_cases hc : f.content = c <;> simp [hc]

/-! Concrete fixtures used by witnesses and counterexamples. -/

def pd1 : ProblemData :=
  ⟨1, "Two Sum", "Given an array of integers.", "Easy", ["Array", "Hash Table"]⟩

def sub1 : Submission :=
  ⟨"two-sum", "Two Sum", "python3", "pass", "52 ms", "15 MB", "Accepted", 0⟩

def gd1 : String → Except String ProblemData :=
  fun s => if s = "two-sum" then Except.ok pd1 else Except.error "404"

def subBad : Submission :=
  ⟨"missing", "Missing", "python3", "x", "1 ms", "1 MB", "Accepted", 0⟩

def pd3 : ProblemData := ⟨3, "Add", "D", "Easy", []⟩

def sub3 : Submission := ⟨"add", "Add", "python3", "ret", "1 ms", "1 MB", "Accepted", 0⟩

def gd2 : String → Except String ProblemData :=
  fun s =>
    if s = "two-sum" then Except.ok pd1
    else if s = "add" then Except.ok pd3
    else Except.error "404"

/-- C2 (amended): a failure while processing one submission is re-raised by
`process_submission` and aborts the loop in `sync_solutions`: the submissions
before the failing one keep their writes, the submissions after it are not
processed at all, and the error surfaces as the run's failure. -/
theorem failure_aborts_remaining (gd : String → Except String ProblemData)
    (l1 : List Submission) (sub : Submission) (l2 : List Submission)
    (st : SyncState) (e : String)
    (hok : (process_all gd l1 st).2.2 = none)
    (hbad : process_submission gd (process_all gd l1 st).2.1 sub = Except.error e) :
    process_all gd (l1 ++ sub :: l2) st =
      ((process_all gd l1 st).1, (process_all gd l1 st).2.1, some e) := by
  induction l1 generalizing st with
  | nil =>
      simp only [process_all] at hbad
      simp [process_all, hbad]
  | cons s l1 ih =>
      cases hps : process_submission gd st s with
      | error e2 =>
          exfalso
          simp [process_all, hps] at hok
      | ok r =>
          have hok2 : (process_all gd l1 r.2).2.2 = none := by
            simpa [process_all, hps] using hok
          have hbad2 : process_submission gd (process_all gd l1 r.2).2.1 sub =
              Except.error e := by
            simpa [process_all, hps] using hbad
          have hrec := ih r.2 hok2 hbad2
          simp [process_all, hps, hrec]

/-- Closed instance of C2 (amended): one good submission, then a failing one,
then another; the run yields exactly the first submission's writes and the
error, the rest contributing nothing. -/
theorem failure_aborts_remaining_witness :
    process_all gd1 ([sub1] ++ subBad :: [sub1]) ⟨[], []⟩ =
      ((process_all gd1 [sub1] ⟨[], []⟩).1,
       (process_all gd1 [sub1] ⟨[], []⟩).2.1, some "404") :=
  failure_aborts_remaining gd1 [sub1] subBad [sub1] ⟨[], []⟩ "404" (by decide) rfl

/-- C2 counterexample to the claim as stated: three submissions where the
2nd's metadata fetch raises; the run reports the error, submission #1 was
written, but submission #3 was never written — the failure aborted the
remaining submissions instead of being isolated. -/
theorem failure_not_isolated_cex :
    (process_all gd2 [sub1, subBad, sub3] ⟨[], []⟩).2.2 = some "404" ∧
    holds_at (process_all gd2 [sub1, subBad, sub3] ⟨[], []⟩).2.1.store
      "easy/0001-two-sum/solution.py" "pass" ∧
    (process_all gd2 [sub1, subBad, sub3] ⟨[], []⟩).2.1.store.get
      "easy/0003-add/solution.py" = none := by
  unfold holds_at
  decide

/-- C3 (amended): the content stored at the solution artifact path is exactly
the verbatim submission code — no surrounding template; the problem id, title,
difficulty and the performance stats are embedded in the README artifact
written alongside it. -/
theorem solution_artifact_is_verbatim_code (gd : String → Except String ProblemData)
    (st : SyncState) (sub : Submission) (pd : ProblemData)
    (w : List WriteOp) (st2 : SyncState)
    (hgd : gd sub.title_slug = Except.ok pd)
    (hok : process_submission gd st sub = Except.ok (w, st2)) :
    holds_at st2.store
      (base_path_of pd sub.title_slug ++ "/solution." ++ get_file_extension sub.lang)
      sub.code ∧
    holds_at st2.store (base_path_of pd sub.title_slug ++ "/README.md")
      (create_problem_readme pd (stats_row sub)) := by
  rw [process_submission_ok gd st sub pd hgd] at hok
  simp only [Except.ok.injEq, Prod.mk.injEq] at hok
  obtain ⟨-, hst⟩ := hok
  subst hst
  constructor
  · exact update_preserves _ _ _ _ _ (update_establishes st _ _)
      (fun h => absurd h.symm (solution_path_ne_readme_path _ _))
  · exact update_establishes _ _ _

def readme1 : String := create_problem_readme pd1 (stats_row sub1)

def w1r : List WriteOp :=
  [WriteOp.create "easy/0001-two-sum/solution.py" "pass",
   WriteOp.create "easy/0001-two-sum/README.md" readme1]

def st1r : SyncState :=
  ⟨[("easy/0001-two-sum/solution.py", ⟨"pass", 0⟩),
    ("easy/0001-two-sum/README.md", ⟨readme1, 0⟩)],
   ["easy/0001-two-sum/README.md", "easy/0001-two-sum/solution.py"]⟩

/-- Closed instance of C3 (amended): after processing `sub1` from the empty
store, the solution path holds the verbatim code "pass" and the README path
holds the rendered template. -/
theorem solution_artifact_is_verbatim_code_witness :
    holds_at st1r.store
      (base_path_of pd1 sub1.title_slug ++ "/solution." ++ get_file_extension sub1.lang)
      sub1.code ∧
    holds_at st1r.store (base_path_of pd1 sub1.title_slug ++ "/README.md")
      (create_problem_readme pd1 (stats_row sub1)) :=
  solution_artifact_is_verbatim_code gd1 ⟨[], []⟩ sub1 pd1 w1r st1r rfl rfl

/-- C3 counterexample to the claim as stated: the content written to the
solution artifact for `sub1` is exactly "pass" — it does not embed the problem
id "1", the title "Two Sum", the difficulty "Easy", or the runtime stat. -/
theorem solution_content_no_template_cex :
    (process_all gd1 [sub1] ⟨[], []⟩).1.head? =
      some (WriteOp.create "easy/0001-two-sum/solution.py" "pass") ∧
    sub1.code = "pass" ∧ pd1.title = "Two Sum" ∧ pd1.difficulty = "Easy" ∧
    ¬ ("1".data <:+: "pass".data) ∧
    ¬ ("Two Sum".data <:+: "pass".data) ∧
    ¬ ("Easy".data <:+: "pass".data) ∧
    ¬ (sub1.runtime.data <:+: "pass".data) := by
  decide

/-- C5 (amended): an error raised during the cache-initialization traversal is
caught and only logged: `_init_path_cache` returns normally (here: when the
root listing itself fails, with an empty cache and the logged message), the
constructor completes, and the subsequent run proceeds exactly as it would
with that partial cache. -/
theorem init_cache_error_swallowed (gc : String → Except String (List Entry))
    (fuel : Nat) (msg : String) (store : Store)
    (h : gc "" = Except.error msg) :
    init_path_cache gc fuel = ([], some msg) ∧
    sync_init gc fuel store = ⟨store, []⟩ ∧
    (∀ gd : String → Except String ProblemData,
     ∀ fetch : Except String (List Submission),
      sync_solutions gd fetch (sync_init gc fuel store) =
        sync_solutions gd fetch ⟨store, []⟩) := by
  have h1 : init_path_cache gc fuel = ([], some msg) := by
    simp [init_path_cache, h]
  refine ⟨h1, ?_, ?_⟩
  · simp [sync_init, h1]
  · intro gd fetch
    simp [sync_init, h1]

def gcFail : String → Except String (List Entry) := fun _ => Except.error "boom"

/-- Closed instance of C5 (amended): a root listing that raises leaves an empty
cache and the logged message, with no exception escaping. -/
theorem init_cache_error_swallowed_witness :
    init_path_cache gcFail 5 = ([], some "boom") :=
  (init_cache_error_swallowed gcFail 5 "boom" [] rfl).1

def gcPartial : String → Except String (List Entry) :=
  fun s => if s = "" then Except.ok [⟨"easy", "dir"⟩] else Except.error "boom"

/-- C5 counterexample to the claim as stated: a traversal that fails midway
(after recording "easy") does not propagate the error — initialization returns
a partial cache, and a subsequent sync run proceeds and issues writes
successfully. -/
theorem init_cache_error_not_fatal_cex :
    init_path_cache gcPartial 5 = (["easy"], some "boom") ∧
    (sync_solutions gd1 (Except.ok [sub1]) (sync_init gcPartial 5 [])).1 ≠ [] ∧
    (sync_solutions gd1 (Except.ok [sub1]) (sync_init gcPartial 5 [])).2.2 = none := by
  decide

/-- C6 (amended): running the sync twice with the same submission set and an
unchanged store in between produces zero writes on the second run, provided no
storage path is derived twice with different built content among the processed
(accepted) submissions; the second run also ends in the same state and with
the same outcome. -/
theorem sync_idempotent_for_consistent_artifacts
    (gd : String → Except String ProblemData) (subs : List Submission)
    (st0 : SyncState)
    (hcons : artifacts_consistent gd (filter_accepted subs)) :
    sync_solutions gd (Except.ok subs) ((sync_solutions gd (Except.ok subs) st0).2.1) =
      ([], (sync_solutions gd (Except.ok subs) st0).2.1,
       (sync_solutions gd (Except.ok subs) st0).2.2) := by
  simp only [sync_solutions, get_submissions]
  exact second_run_noop gd (filter_accepted subs) st0 hcons

set_option maxRecDepth 400000 in
/-- Closed instance of C6 (amended): syncing the single submission `sub1`
twice from the empty store issues no write on the second run. -/
theorem sync_idempotent_for_consistent_artifacts_witness :
    sync_solutions gd1 (Except.ok [sub1])
        ((sync_solutions gd1 (Except.ok [sub1]) ⟨[], []⟩).2.1) =
      ([], (sync_solutions gd1 (Except.ok [sub1]) ⟨[], []⟩).2.1,
       (sync_solutions gd1 (Except.ok [sub1]) ⟨[], []⟩).2.2) :=
  sync_idempotent_for_consistent_artifacts gd1 [sub1] ⟨[], []⟩
    (by unfold artifacts_consistent; decide)

def pdX : ProblemData := ⟨9, "T", "D", "E", []⟩

def gdX : String → Except String ProblemData :=
  fun s => if s = "t" then Except.ok pdX else Except.error "404"

def subX1 : Submission := ⟨"t", "T", "q", "a", "1", "1", "Accepted", 0⟩

def subX2 : Submission := ⟨"t", "T", "q", "b", "1", "1", "Accepted", 0⟩

set_option maxRecDepth 400000 in
/-- C6 counterexample to the claim as stated: two accepted submissions of the
same problem in the same language with different code derive the same solution
path with different content; the second run then issues writes again (the
claim's universal "zero writes on the second run" fails). -/
theorem sync_not_idempotent_cex :
    (sync_solutions gdX (Except.ok [subX1, subX2])
      ((sync_solutions gdX (Except.ok [subX1, subX2]) ⟨[], []⟩).2.1)).1 ≠ [] := by
  decide

end SyncLeetCode
